import Mathlib

/-!
Shallow embedding of the riseup/ip-calc address calculator
(src/src/calculator.ts).

Modelling conventions:
* JS strings are lists of characters (`List Char`).
* JS numbers are `Option Int`: `none` models the NaN value, and also
  `undefined` in the positions where it only ever feeds `ToInt32`
  (both convert to 0 there).  Fractional JS numbers never arise from
  the inputs this library manipulates (dotted digit strings, integer
  or digit-string masks), so integers suffice.
* Thrown exceptions are modelled by returning the error message next
  to the (possibly mutated) instance state, so that partial mutation
  before a throw is observable exactly as in JS.
-/

/-- ASCII decimal digit test; models the digits accepted by the regex
\d and produced by JS number-to-string conversion. -/
def isDecDigit (c : Char) : Bool := 48 ≤ c.toNat && c.toNat ≤ 57

/-- ASCII hexadecimal digit test (0-9, a-f, A-F), as accepted by
parseInt with radix 16. -/
def isHexDigitCh (c : Char) : Bool :=
  (48 ≤ c.toNat && c.toNat ≤ 57) || (97 ≤ c.toNat && c.toNat ≤ 102) ||
    (65 ≤ c.toNat && c.toNat ≤ 70)

/-- Numeric value of one digit character (0 for non-digits; callers
check digit-hood separately). -/
def hexVal (c : Char) : Nat :=
  if 48 ≤ c.toNat ∧ c.toNat ≤ 57 then c.toNat - 48
  else if 97 ≤ c.toNat ∧ c.toNat ≤ 102 then c.toNat - 87
  else if 65 ≤ c.toNat ∧ c.toNat ≤ 70 then c.toNat - 55
  else 0

/-- Value of a digit string in base `b` (most significant first). -/
def digitsVal (b : Nat) (s : List Char) : Nat :=
  s.foldl (fun a c => b * a + hexVal c) 0

/-- Convenience conversion from Lean string literals to the character
lists that model JS strings. -/
def s2l (s : String) : List Char := s.data

/-- Models JS String.prototype.split with the one-character separator
"." : every occurrence of the dot splits, empty pieces are kept, and
the empty string yields one empty piece. -/
def splitDot : List Char → List (List Char)
  | [] => [[]]
  | c :: rest =>
    if c = '.' then [] :: splitDot rest
    else
      match splitDot rest with
      | [] => [[c]]
      | p :: ps => (c :: p) :: ps

/-- Models Array.prototype.join with separator "." (elements already
converted to strings). -/
def joinDot : List (List Char) → List Char
  | [] => []
  | [s] => s
  | s :: rest => s ++ '.' :: joinDot rest

/-- Models Array.prototype.join with the empty separator. -/
def concatAll : List (List Char) → List Char
  | [] => []
  | s :: rest => s ++ concatAll rest

/-- Lower-case digit character for a value below the base, as used by
JS Number.prototype.toString. -/
def digitChar (d : Nat) : Char :=
  if d < 10 then Char.ofNat (48 + d) else Char.ofNat (87 + d)

/-- Fuel-driven digit printer; structural recursion on the fuel keeps
it kernel-reducible.  One fuel unit is spent per emitted digit. -/
def natDigitsAux (b : Nat) : Nat → Nat → List Char
  | 0, n => [digitChar n]
  | fuel + 1, n =>
    if b ≤ 1 then [digitChar n]
    else if n < b then [digitChar n]
    else natDigitsAux b fuel (n / b) ++ [digitChar (n % b)]

/-- Base-`b` digit string of a natural number, most significant digit
first and without leading zeros, as produced by JS
Number.prototype.toString for non-negative integers.  Fuel `n` is
ample: the recursion divides `n` by `b ≥ 2` at every step. -/
def natDigits (b n : Nat) : List Char := natDigitsAux b n n

/-- JS numbers: `some n` is the integer `n`, `none` is NaN. -/
abbrev JSNum := Option Int

/-- ToUint32 of a JS number (NaN converts to 0). -/
def u32 (x : JSNum) : Nat :=
  match x with
  | none => 0
  | some n => (n.emod (2 ^ 32)).toNat

/-- Reinterpret an unsigned 32-bit value as a signed 32-bit integer. -/
def int32ofUint (u : Nat) : Int :=
  if u < 2 ^ 31 then (u : Int) else (u : Int) - 2 ^ 32

/-- ToInt32 of a JS number (NaN converts to 0). -/
def toInt32 (x : JSNum) : Int := int32ofUint (u32 x)

/-- JS bitwise AND. -/
def jsAnd (a b : JSNum) : JSNum := some (int32ofUint (u32 a &&& u32 b))

/-- JS bitwise OR. -/
def jsOr (a b : JSNum) : JSNum := some (int32ofUint (u32 a ||| u32 b))

/-- JS bitwise NOT (complement of every bit of the uint32 form). -/
def jsNot (a : JSNum) : JSNum := some (int32ofUint (2 ^ 32 - 1 - u32 a))

/-- JS left shift: shift count is the right operand modulo 32, result
is an int32. -/
def jsShl (a b : JSNum) : JSNum :=
  some (int32ofUint (u32 a * 2 ^ (u32 b % 32) % 2 ^ 32))

/-- JS sign-propagating right shift, i.e. floor division of the int32
value by a power of two. -/
def jsShr (a b : JSNum) : JSNum :=
  some (Int.fdiv (toInt32 a) (2 ^ (u32 b % 32)))

/-- JS addition restricted to integers, with NaN propagation. -/
def jsAdd (a b : JSNum) : JSNum :=
  match a, b with
  | some x, some y => some (x + y)
  | _, _ => none

/-- JS subtraction restricted to integers, with NaN propagation. -/
def jsSub (a b : JSNum) : JSNum :=
  match a, b with
  | some x, some y => some (x - y)
  | _, _ => none

/-- JS exponentiation 2 ** e for the integer exponents reachable here.
A negative exponent would give a fractional JS number; it is outside
the modelled domain (the stored mask never exceeds 32, keeping every
used exponent non-negative) and is mapped to NaN. -/
def jsPow2 (e : Int) : JSNum :=
  if e < 0 then none else some ((2 : Int) ^ e.toNat)

/-- JS comparison x < b: false whenever x is NaN. -/
def jlt (a : JSNum) (b : Int) : Bool :=
  match a with
  | none => false
  | some n => decide (n < b)

/-- JS comparison x > b: false whenever x is NaN. -/
def jgt (a : JSNum) (b : Int) : Bool :=
  match a with
  | none => false
  | some n => decide (n > b)

/-- Models the JS Number() conversion on the string shapes this
library meets: the empty string converts to 0, a non-empty all-digit
string to its decimal value, and every other string (such as the
alphabetic segments of "a.b.c.d") to NaN.  Exotic numeric syntax
(signs, exponents, hex prefixes, surrounding whitespace) is outside
the modelled subset. -/
def jsNumberOfString (s : List Char) : JSNum :=
  if s = [] then some 0
  else if s.all isDecDigit then some (Int.ofNat (digitsVal 10 s))
  else none

/-- Models JS parseInt(s, 16) on the inputs produced here (non-empty
strings of hexadecimal digits); anything else is mapped to NaN. -/
def parseIntHex (s : List Char) : JSNum :=
  if s ≠ [] ∧ s.all isHexDigitCh then some (Int.ofNat (digitsVal 16 s))
  else none

/-- Models JS number-to-string conversion (base 10): NaN prints as
"NaN", negative integers with a leading minus sign. -/
def jsNumToString (x : JSNum) : List Char :=
  match x with
  | none => s2l ("NaN")
  | some n => if n < 0 then '-' :: natDigits 10 (-n).toNat else natDigits 10 n.toNat

/-- Models JS Number.prototype.toString(16). -/
def jsToString16 (x : JSNum) : List Char :=
  match x with
  | none => s2l ("NaN")
  | some n => if n < 0 then '-' :: natDigits 16 (-n).toNat else natDigits 16 n.toNat

/-- Models String.prototype.padStart(2, "0"). -/
def padStart2 (s : List Char) : List Char :=
  if s.length < 2 then List.replicate (2 - s.length) '0' ++ s else s

/-- Models s.match(/.\x7b1,2\x7d/g) || []: greedy chunks of two
characters from the left, a final odd character alone, and no chunks
for the empty string. -/
def chunk2 : List Char → List (List Char)
  | [] => []
  | [c] => [[c]]
  | c1 :: c2 :: rest => [c1, c2] :: chunk2 rest

/-- Error messages of src/src/calculator.ts.  The text constants live
in src/config (not among the provided sources); only their identity
matters, so they are modelled as an enumeration. -/
inductive ErrMsg
  | invalidIP
  | invalidMask
  | invalidIPorMask
deriving DecidableEq

/-- Instance state of the Calculator class: the two validated inputs
and the eleven public string fields that calculate() overwrites. -/
structure Calculator where
  ipOctets : List JSNum := []
  maskBits : Int := 0
  ip : List Char := []
  network : List Char := []
  netmask : List Char := []
  broadcast : List Char := []
  wildcard : List Char := []
  hostMin : List Char := []
  hostMax : List Char := []
  ipv4Class : List Char := []
  maxHosts : List Char := []
  maxNetworks : List Char := []
  mask : List Char := []
deriving DecidableEq

/-- Field values of a freshly allocated instance, before the
constructor body runs. -/
def initCalc : Calculator := {}

/-- ipToOctetArray: split on "." and convert each piece with Number. -/
def ipToOctetArray (ip : List Char) : List JSNum :=
  (splitDot ip).map jsNumberOfString

/-- validateIp: reject unless the string splits into exactly 4 pieces
none of which compares below 0 or above 255 (NaN compares false on
both sides, exactly as in JS). -/
def validateIp (ip : List Char) (message : ErrMsg) : Except ErrMsg (List JSNum) :=
  let ipOctets := ipToOctetArray ip
  if ipOctets.length ≠ 4 then .error message
  else if ipOctets.any (fun octet => jlt octet 0 || jgt octet 255) then .error message
  else .ok ipOctets

/-- validateMask: reject a prefix length outside [0, 32]. -/
def validateMask (mask : Int) (message : ErrMsg) : Except ErrMsg Int :=
  if mask < 0 ∨ mask > 32 then .error message else .ok mask

/-- setIp: validate, then store the octets.  On a throw the state is
returned unchanged. -/
def setIp (st : Calculator) (ip : List Char) : Option ErrMsg × Calculator :=
  match validateIp ip .invalidIP with
  | .error e => (some e, st)
  | .ok o => (none, { st with ipOctets := o })

/-- Argument type of setMask: a JS number or a JS string. -/
inductive MaskInput
  | num (n : Int)
  | str (s : List Char)

/-- Inner while loop of getMaskBitsFromSubnetMask: count while bit 7
is set, shifting left each time.  The JS loop runs at most 8 times
(every left shift adds one more low zero bit, so bit 7 is clear after
8 shifts), hence fuel 8 is exact. -/
def countLoop : Nat → JSNum → Nat
  | 0, _ => 0
  | fuel + 1, octet =>
    if jsAnd octet (some 128) ≠ some 0 then 1 + countLoop fuel (jsShl octet (some 1))
    else 0

/-- getMaskBitsFromSubnetMask: when the stored maskBits is falsy
(an integer in this model, so falsy means 0) recompute it as the sum
of the per-octet leading-one counts and store it; otherwise return
the stored value untouched. -/
def getMaskBitsFromSubnetMask (st : Calculator) (netmask : List JSNum) :
    Calculator × Int :=
  if st.maskBits = 0 then
    let bits : Int := Int.ofNat ((netmask.map (countLoop 8)).foldl (· + ·) 0)
    ({ st with maskBits := bits }, bits)
  else (st, st.maskBits)

/-- setMask: a number is used directly; an all-digit string is parsed
base 10; any other string is validated as a dotted mask and converted
through getMaskBitsFromSubnetMask; the resulting candidate passes
validateMask before being stored. -/
def setMask (st : Calculator) (mask : MaskInput) : Option ErrMsg × Calculator :=
  match mask with
  | .num n =>
    match validateMask n .invalidMask with
    | .error e => (some e, st)
    | .ok v => (none, { st with maskBits := v })
  | .str s =>
    if s ≠ [] ∧ s.all isDecDigit then
      match validateMask (Int.ofNat (digitsVal 10 s)) .invalidMask with
      | .error e => (some e, st)
      | .ok v => (none, { st with maskBits := v })
    else
      match validateIp s .invalidMask with
      | .error e => (some e, st)
      | .ok octets =>
        let r := getMaskBitsFromSubnetMask st octets
        match validateMask r.2 .invalidMask with
        | .error e => (some e, r.1)
        | .ok v => (none, { r.1 with maskBits := v })

/-- getNetworkMask: 0xffffffff shifted left by (32 - prefix) under JS
shift semantics, split into 4 octets. -/
def getNetworkMask (prefixLength : Int) : List JSNum :=
  let pfx : Nat := (prefixLength.emod (2 ^ 32)).toNat
  let networkMask : JSNum := jsShl (some 0xffffffff) (some (32 - (pfx : Int)))
  [ jsAnd (jsShr networkMask (some 24)) (some 0xff),
    jsAnd (jsShr networkMask (some 16)) (some 0xff),
    jsAnd (jsShr networkMask (some 8)) (some 0xff),
    jsAnd networkMask (some 0xff) ]

/-- getNetwork: octet-wise AND of address and netmask (a missing
element reads as undefined, which the bitwise AND treats as 0). -/
def getNetwork (ip netmask : List JSNum) : List JSNum :=
  [ jsAnd (ip.getD 0 none) (netmask.getD 0 none),
    jsAnd (ip.getD 1 none) (netmask.getD 1 none),
    jsAnd (ip.getD 2 none) (netmask.getD 2 none),
    jsAnd (ip.getD 3 none) (netmask.getD 3 none) ]

/-- getInvertedMask: octet-wise complement masked to 8 bits. -/
def getInvertedMask (netmask : List JSNum) : List JSNum :=
  [ jsAnd (jsNot (netmask.getD 0 none)) (some 0xff),
    jsAnd (jsNot (netmask.getD 1 none)) (some 0xff),
    jsAnd (jsNot (netmask.getD 2 none)) (some 0xff),
    jsAnd (jsNot (netmask.getD 3 none)) (some 0xff) ]

/-- getBroadcast: octet-wise OR of network and inverted mask. -/
def getBroadcast (network invertedMask : List JSNum) : List JSNum :=
  [ jsOr (network.getD 0 none) (invertedMask.getD 0 none),
    jsOr (network.getD 1 none) (invertedMask.getD 1 none),
    jsOr (network.getD 2 none) (invertedMask.getD 2 none),
    jsOr (network.getD 3 none) (invertedMask.getD 3 none) ]

/-- getHostMin: copy the network address and add 1 to its last octet
(no carry, no upper bound). -/
def getHostMin (network : List JSNum) : List JSNum :=
  network.set 3 (jsAdd (network.getD 3 none) (some 1))

/-- getIpV4Class: classful test on the first octet. -/
def getIpV4Class (ip : List JSNum) : List Char :=
  let firstOctet := ip.getD 0 none
  if jsAnd firstOctet (some 128) = some 0 then s2l ("A")
  else if jsAnd firstOctet (some 64) = some 0 then s2l ("B")
  else if jsAnd firstOctet (some 32) = some 0 then s2l ("C")
  else if jsAnd firstOctet (some 16) = some 0 then s2l ("D")
  else s2l ("E")

/-- getHostNumber: 2 ** (32 - maskBits) - 2, with maskBits read (and
possibly recomputed) through getMaskBitsFromSubnetMask. -/
def getHostNumber (st : Calculator) (netmask : List JSNum) : Calculator × JSNum :=
  let r := getMaskBitsFromSubnetMask st netmask
  (r.1, jsSub (jsPow2 (32 - r.2)) (some 2))

/-- getNetworkNumber: 2 ** maskBits, with maskBits read through
getMaskBitsFromSubnetMask. -/
def getNetworkNumber (st : Calculator) (netmask : List JSNum) : Calculator × JSNum :=
  let r := getMaskBitsFromSubnetMask st netmask
  (r.1, jsPow2 r.2)

/-- convertToHexa: validate the dotted string, then print every octet
as two lower-case hexadecimal digits and concatenate. -/
def convertToHexa (ip : List Char) : Except ErrMsg (List Char) :=
  match validateIp ip .invalidIP with
  | .error e => .error e
  | .ok ipParts => .ok (concatAll (ipParts.map (fun part => padStart2 (jsToString16 part))))

/-- subtractFromHex: parse the whole hexadecimal string as one
integer, subtract 1, return "ff" when the result is negative and the
two-padded hexadecimal text of the result otherwise. -/
def subtractFromHex (hexDigit : List Char) : List Char :=
  let numVal := jsSub (parseIntHex hexDigit) (some 1)
  if jlt numVal 0 then s2l ("ff") else padStart2 (jsToString16 numVal)

/-- hexaToIpArray: chop into chunks of two characters and parse each
chunk as hexadecimal. -/
def hexaToIpArray (number : List Char) : List JSNum :=
  (chunk2 number).map parseIntHex

/-- getHostMax: print the broadcast octets as a dotted string, convert
to hexadecimal, decrement, re-chunk. -/
def getHostMax (broadcast : List JSNum) : Except ErrMsg (List JSNum) :=
  match convertToHexa (joinDot (broadcast.map jsNumToString)) with
  | .error e => .error e
  | .ok bcaConverted => .ok (hexaToIpArray (subtractFromHex bcaConverted))

/-- calculate: guard, derive every field, overwrite the outputs.  The
mutation performed inside getHostNumber / getNetworkNumber is threaded
exactly as in the source. -/
def calculate (st : Calculator) : Option ErrMsg × Calculator :=
  let ip := st.ipOctets
  let mask := st.maskBits
  if ip.length = 0 ∨ mask = 0 then (some .invalidIPorMask, st)
  else
    let netmask := getNetworkMask mask
    let wildcard := getInvertedMask netmask
    let network := getNetwork ip netmask
    let broadcast := getBroadcast network wildcard
    let hostMin := getHostMin network
    match getHostMax broadcast with
    | .error e => (some e, st)
    | .ok hostMax =>
      let ipv4Class := getIpV4Class ip
      let r1 := getHostNumber st netmask
      let r2 := getNetworkNumber r1.1 netmask
      (none, { r2.1 with
        ip := joinDot (ip.map jsNumToString),
        network := joinDot (network.map jsNumToString),
        ipv4Class := ipv4Class,
        maxHosts := jsNumToString r1.2,
        maxNetworks := jsNumToString r2.2,
        wildcard := joinDot (wildcard.map jsNumToString),
        hostMin := joinDot (hostMin.map jsNumToString),
        hostMax := joinDot (hostMax.map jsNumToString),
        netmask := joinDot (netmask.map jsNumToString),
        broadcast := joinDot (broadcast.map jsNumToString),
        mask := jsNumToString (some mask) })

/-- Constructor: default address 127.0.0.1, default mask 32, then
setIp followed by setMask. -/
def construct (oip : Option (List Char)) (omask : Option MaskInput) :
    Option ErrMsg × Calculator :=
  let ip := oip.getD (s2l ("127.0.0.1"))
  let mask := omask.getD (.num 32)
  match setIp initCalc ip with
  | (some e, st) => (some e, st)
  | (none, st) => setMask st mask

/-- States reachable through a successful construction followed by
successful setIp / setMask / calculate calls. -/
inductive Reachable : Calculator → Prop
  | of_construct (oip : Option (List Char)) (omask : Option MaskInput)
      (st : Calculator) : construct oip omask = (none, st) → Reachable st
  | of_setIp (st st' : Calculator) (s : List Char) :
      Reachable st → setIp st s = (none, st') → Reachable st'
  | of_setMask (st st' : Calculator) (m : MaskInput) :
      Reachable st → setMask st m = (none, st') → Reachable st'
  | of_calculate (st st' : Calculator) :
      Reachable st → calculate st = (none, st') → Reachable st'

/-- Octet-sized JS numbers: non-negative integers below 256. -/
def IsOct (x : JSNum) : Prop := ∃ k : Nat, k < 256 ∧ x = some (Int.ofNat k)

/-- Whole-value decrement description of getHostMax (the amended form
of claim C3): the broadcast octets are read as one 32-bit value, that
value is decremented by 1 with borrows propagating across bytes, a
total underflow (value 0) is replaced by the single byte ff, and the
unpadded hexadecimal text of the result is re-chunked two digits at a
time. -/
def hostMaxWhole (k0 k1 k2 k3 : Nat) : List JSNum :=
  if ((k0 * 256 + k1) * 256 + k2) * 256 + k3 = 0 then [some 255]
  else hexaToIpArray (padStart2 (natDigits 16
    (((k0 * 256 + k1) * 256 + k2) * 256 + k3 - 1)))

/-- The host-max array calculate derives from the current inputs (the
error branch is unreachable; see getHostMax_eq). -/
def hostMaxOf (ip : List JSNum) (mask : Int) : List JSNum :=
  match getHostMax (getBroadcast (getNetwork ip (getNetworkMask mask))
      (getInvertedMask (getNetworkMask mask))) with
  | .ok l => l
  | .error _ => []

/-- The 32-bit value encoded by a 4-octet array (most significant
octet first; a NaN octet reads as 0). -/
def octetsValue (l : List JSNum) : Nat :=
  l.foldl (fun acc o => 256 * acc + (o.getD 0).toNat) 0

/-- Spec-described derivation of the maximum host address (claim C3,
written from the spec's words, for comparison with the code):
decrement only the last byte of the broadcast address, wrapping 0 to
0xff with no borrow into the preceding bytes. -/
def specHostMaxLastByte (b0 b1 b2 b3 : Nat) : List Nat :=
  [b0, b1, b2, if b3 = 0 then 255 else b3 - 1]

set_option maxRecDepth 4000 in
/-- Decimal pieces below 256 (the only ones an octet array produces)
parse back to themselves, are non-empty, and contain no dot. -/
theorem decPiece : ∀ k, k < 256 →
    jsNumberOfString (natDigits 10 k) = some (Int.ofNat k) ∧
      natDigits 10 k ≠ [] ∧ '.' ∉ natDigits 10 k := by decide

set_option maxRecDepth 4000 in
/-- Two-padded hexadecimal pieces of octets have length 2, consist of
hexadecimal digits and carry the octet's value. -/
theorem hexPiece : ∀ k, k < 256 →
    (padStart2 (natDigits 16 k)).length = 2 ∧
      (padStart2 (natDigits 16 k)).all isHexDigitCh = true ∧
      digitsVal 16 (padStart2 (natDigits 16 k)) = k := by decide

set_option maxRecDepth 4000 in
/-- Masking an octet-sized value with 255 is the identity. -/
theorem land255 : ∀ k, k < 256 → k &&& 255 = k := by decide

/-- Splitting a dot-free string yields the one-piece list. -/
theorem splitDot_nodot (s : List Char) (h : '.' ∉ s) : splitDot s = [s] := by
  induction s with
  | nil => rfl
  | cons c rest ih =>
    have hc : ¬ c = '.' := by
      intro he
      exact h (he ▸ List.mem_cons_self c rest)
    have hr : '.' ∉ rest := fun hm => h (List.mem_cons_of_mem c hm)
    simp [splitDot, hc, ih hr]

/-- Splitting strips the first dot after a dot-free head. -/
theorem splitDot_append_dot (s t : List Char) (h : '.' ∉ s) :
    splitDot (s ++ '.' :: t) = s :: splitDot t := by
  induction s with
  | nil => simp [splitDot]
  | cons c rest ih =>
    have hc : ¬ c = '.' := by
      intro he
      exact h (he ▸ List.mem_cons_self c rest)
    have hr : '.' ∉ rest := fun hm => h (List.mem_cons_of_mem c hm)
    simp [splitDot, hc, ih hr]

/-- Splitting is a left inverse of dot-joining for dot-free pieces. -/
theorem splitDot_joinDot (l : List (List Char)) (hne : l ≠ [])
    (h : ∀ s ∈ l, '.' ∉ s) : splitDot (joinDot l) = l := by
  induction l with
  | nil => exact absurd rfl hne
  | cons s rest ih =>
    cases rest with
    | nil => exact splitDot_nodot s (h s (List.mem_cons_self s []))
    | cons s2 rest2 =>
      have hs : '.' ∉ s := h s (List.mem_cons_self s (s2 :: rest2))
      have hrest : ∀ x ∈ s2 :: rest2, '.' ∉ x := fun x hx =>
        h x (List.mem_cons_of_mem s hx)
      have hj : joinDot (s :: s2 :: rest2) = s ++ '.' :: joinDot (s2 :: rest2) := rfl
      rw [hj, splitDot_append_dot s _ hs, ih (by simp) hrest]

/-- Value of a digit string read from an accumulator. -/
theorem digitsVal_foldl (b : Nat) (t : List Char) (a : Nat) :
    t.foldl (fun x c => b * x + hexVal c) a = a * b ^ t.length + digitsVal b t := by
  induction t generalizing a with
  | nil => simp [digitsVal]
  | cons c rest ih =>
    show List.foldl _ (b * a + hexVal c) rest = _
    rw [ih]
    have hd : digitsVal b (c :: rest) =
        List.foldl (fun x c => b * x + hexVal c) (b * 0 + hexVal c) rest := rfl
    rw [hd, ih, List.length_cons]
    ring

/-- Value of a concatenation of digit strings. -/
theorem digitsVal_append (b : Nat) (s t : List Char) :
    digitsVal b (s ++ t) = digitsVal b s * b ^ t.length + digitsVal b t := by
  unfold digitsVal
  rw [List.foldl_append, digitsVal_foldl]
  rfl

/-- ToUint32 is the identity on values below 2^32. -/
theorem u32_ofNat (k : Nat) (h : k < 2 ^ 32) : u32 (some (Int.ofNat k)) = k := by
  show ((Int.ofNat k).emod (2 ^ 32)).toNat = k
  have h2 : Int.ofNat k % (2 ^ 32 : Int) = Int.ofNat k := by
    apply Int.emod_eq_of_lt
    · exact Int.ofNat_nonneg k
    · calc Int.ofNat k < Int.ofNat (2 ^ 32) := Int.ofNat_lt.mpr h
        _ = (2 ^ 32 : Int) := by norm_num
  have h1 : (Int.ofNat k).emod (2 ^ 32) = Int.ofNat k := h2
  rw [h1]
  rfl

/-- The octet bound written as a power of two. -/
theorem oct_pow : (256 : Nat) = 2 ^ 8 := by norm_num

/-- Bitwise AND with an octet-sized value stays octet-sized. -/
theorem and_lt256 (x : Nat) {y : Nat} (hy : y < 256) : x &&& y < 256 := by
  rw [oct_pow] at hy ⊢
  exact Nat.and_lt_two_pow x hy

/-- Bitwise OR of octet-sized values stays octet-sized. -/
theorem or_lt256 {x y : Nat} (hx : x < 256) (hy : y < 256) : x ||| y < 256 := by
  rw [oct_pow] at hx hy ⊢
  exact Nat.or_lt_two_pow hx hy

/-- Reinterpreting octet-sized unsigned values is the identity. -/
theorem int32ofUint_small (u : Nat) (h : u < 256) : int32ofUint u = Int.ofNat u := by
  unfold int32ofUint
  rw [if_pos (by omega)]
  rfl

/-- A bitwise AND with an octet on the right produces an octet. -/
theorem isOct_and_right (a : JSNum) {b : JSNum} (hb : IsOct b) :
    IsOct (jsAnd a b) := by
  obtain ⟨k, hk, rfl⟩ := hb
  have hu : u32 (some (Int.ofNat k)) = k := u32_ofNat k (by omega)
  have hlt : u32 a &&& k < 256 := and_lt256 _ hk
  refine ⟨u32 a &&& k, hlt, ?_⟩
  unfold jsAnd
  rw [hu, int32ofUint_small _ hlt]

/-- The literal 255 is an octet. -/
theorem isOct_255 : IsOct (some 255) := ⟨255, by omega, rfl⟩

/-- Any bitwise AND with 255 produces an octet. -/
theorem isOct_and255 (a : JSNum) : IsOct (jsAnd a (some 255)) :=
  isOct_and_right a isOct_255

/-- A bitwise OR of two octets is an octet. -/
theorem isOct_or {a b : JSNum} (ha : IsOct a) (hb : IsOct b) :
    IsOct (jsOr a b) := by
  obtain ⟨k1, hk1, rfl⟩ := ha
  obtain ⟨k2, hk2, rfl⟩ := hb
  have hlt : k1 ||| k2 < 256 := or_lt256 hk1 hk2
  refine ⟨k1 ||| k2, hlt, ?_⟩
  unfold jsOr
  rw [u32_ofNat k1 (by omega), u32_ofNat k2 (by omega), int32ofUint_small _ hlt]

/-- Octet values print as their bare decimal digits. -/
theorem jsNumToString_oct (k : Nat) :
    jsNumToString (some (k : Int)) = natDigits 10 k := by
  show (if (k : Int) < 0 then '-' :: natDigits 10 (-(k : Int)).toNat
    else natDigits 10 ((k : Int)).toNat) = natDigits 10 k
  rw [if_neg (by omega)]
  simp

/-- Octet values print in base 16 as their bare hexadecimal digits. -/
theorem jsToString16_oct (k : Nat) :
    jsToString16 (some (k : Int)) = natDigits 16 k := by
  show (if (k : Int) < 0 then '-' :: natDigits 16 (-(k : Int)).toNat
    else natDigits 16 ((k : Int)).toNat) = natDigits 16 k
  rw [if_neg (by omega)]
  simp

/-- Re-validating the dotted print-out of four octets succeeds and
returns exactly those octets. -/
theorem validateIp_oct4 (k0 k1 k2 k3 : Nat) (h0 : k0 < 256) (h1 : k1 < 256)
    (h2 : k2 < 256) (h3 : k3 < 256) (msg : ErrMsg) :
    validateIp (joinDot (([some (k0 : Int), some (k1 : Int),
        some (k2 : Int), some (k3 : Int)]).map jsNumToString)) msg =
      .ok [some (k0 : Int), some (k1 : Int), some (k2 : Int), some (k3 : Int)] := by
  have hmap : ([some (k0 : Int), some (k1 : Int), some (k2 : Int),
      some (k3 : Int)]).map jsNumToString =
      [natDigits 10 k0, natDigits 10 k1, natDigits 10 k2, natDigits 10 k3] := by
    simp [jsNumToString_oct]
  rw [hmap]
  have hdot : ∀ k : Nat, k < 256 → '.' ∉ natDigits 10 k := fun k hk => (decPiece k hk).2.2
  have hsplit : splitDot (joinDot [natDigits 10 k0, natDigits 10 k1,
      natDigits 10 k2, natDigits 10 k3]) =
      [natDigits 10 k0, natDigits 10 k1, natDigits 10 k2, natDigits 10 k3] := by
    apply splitDot_joinDot _ (by simp)
    intro s hs
    simp only [List.mem_cons, List.not_mem_nil, or_false] at hs
    rcases hs with h | h | h | h <;> subst h
    · exact hdot k0 h0
    · exact hdot k1 h1
    · exact hdot k2 h2
    · exact hdot k3 h3
  have hnum : ∀ k : Nat, k < 256 → jsNumberOfString (natDigits 10 k) = some (k : Int) := by
    intro k hk
    have := (decPiece k hk).1
    simpa using this
  unfold validateIp ipToOctetArray
  rw [hsplit]
  have hparse : ([natDigits 10 k0, natDigits 10 k1, natDigits 10 k2,
      natDigits 10 k3]).map jsNumberOfString =
      [some (k0 : Int), some (k1 : Int), some (k2 : Int), some (k3 : Int)] := by
    simp [hnum k0 h0, hnum k1 h1, hnum k2 h2, hnum k3 h3]
  rw [hparse]
  have hlt : ∀ k : Nat, jlt (some (k : Int)) 0 = false := by
    intro k
    unfold jlt
    simp only [decide_eq_false_iff_not]
    omega
  have hgt : ∀ k : Nat, k < 256 → jgt (some (k : Int)) 255 = false := by
    intro k hk
    unfold jgt
    simp only [decide_eq_false_iff_not]
    omega
  simp [hlt, hgt k0 h0, hgt k1 h1, hgt k2 h2, hgt k3 h3]

/-- Converting the dotted print-out of four octets to hexadecimal
yields the four two-padded hexadecimal chunks concatenated. -/
theorem convertToHexa_oct4 (k0 k1 k2 k3 : Nat) (h0 : k0 < 256) (h1 : k1 < 256)
    (h2 : k2 < 256) (h3 : k3 < 256) :
    convertToHexa (joinDot (([some (k0 : Int), some (k1 : Int),
        some (k2 : Int), some (k3 : Int)]).map jsNumToString)) =
      .ok (padStart2 (natDigits 16 k0) ++ (padStart2 (natDigits 16 k1) ++
        (padStart2 (natDigits 16 k2) ++ padStart2 (natDigits 16 k3)))) := by
  unfold convertToHexa
  rw [validateIp_oct4 k0 k1 k2 k3 h0 h1 h2 h3]
  simp [concatAll, jsToString16_oct]

/-- Parsing the concatenation of the four two-padded hexadecimal
chunks recovers the 32-bit value of the four octets. -/
theorem parseIntHex_concat4 (k0 k1 k2 k3 : Nat) (h0 : k0 < 256) (h1 : k1 < 256)
    (h2 : k2 < 256) (h3 : k3 < 256) :
    parseIntHex (padStart2 (natDigits 16 k0) ++ (padStart2 (natDigits 16 k1) ++
        (padStart2 (natDigits 16 k2) ++ padStart2 (natDigits 16 k3)))) =
      some ((((k0 * 256 + k1) * 256 + k2) * 256 + k3 : Nat) : Int) := by
  have hp0 := hexPiece k0 h0
  have hp1 := hexPiece k1 h1
  have hp2 := hexPiece k2 h2
  have hp3 := hexPiece k3 h3
  unfold parseIntHex
  rw [if_pos]
  · congr 1
    rw [digitsVal_append, digitsVal_append, digitsVal_append,
      List.length_append, List.length_append, hp1.1, hp2.1, hp3.1,
      hp0.2.2, hp1.2.2, hp2.2.2, hp3.2.2]
    norm_num
    ring
  · constructor
    · intro hemp
      have hlen := hp0.1
      rw [List.append_eq_nil] at hemp
      rw [hemp.1] at hlen
      simp at hlen
    · rw [List.all_append, List.all_append, List.all_append]
      simp [hp0.2.1, hp1.2.1, hp2.2.1, hp3.2.1]

/-- getHostMax on four octets succeeds and equals the whole-value
decrement description. -/
theorem getHostMax_eq (k0 k1 k2 k3 : Nat) (h0 : k0 < 256) (h1 : k1 < 256)
    (h2 : k2 < 256) (h3 : k3 < 256) :
    getHostMax [some (k0 : Int), some (k1 : Int), some (k2 : Int),
        some (k3 : Int)] = .ok (hostMaxWhole k0 k1 k2 k3) := by
  have hconv := convertToHexa_oct4 k0 k1 k2 k3 h0 h1 h2 h3
  simp only [getHostMax, hconv]
  congr 1
  unfold subtractFromHex
  rw [parseIntHex_concat4 k0 k1 k2 k3 h0 h1 h2 h3]
  simp only [jsSub]
  by_cases hz : ((k0 * 256 + k1) * 256 + k2) * 256 + k3 = 0
  · have hjlt : jlt (some (((((k0 * 256 + k1) * 256 + k2) * 256 + k3 : Nat) : Int) - 1)) 0
        = true := by
      unfold jlt
      simp only [decide_eq_true_eq]
      omega
    rw [if_pos hjlt]
    unfold hostMaxWhole
    rw [if_pos hz]
    decide
  · have hjlt : jlt (some (((((k0 * 256 + k1) * 256 + k2) * 256 + k3 : Nat) : Int) - 1)) 0
        = false := by
      unfold jlt
      simp only [decide_eq_false_iff_not]
      omega
    rw [if_neg (by rw [hjlt]; exact Bool.false_ne_true)]
    unfold hostMaxWhole
    rw [if_neg hz]
    have hsub : (some (((((k0 * 256 + k1) * 256 + k2) * 256 + k3 : Nat) : Int) - 1) : JSNum)
        = some (((((k0 * 256 + k1) * 256 + k2) * 256 + k3 - 1 : Nat)) : Int) := by
      congr 1
      omega
    rw [hsub, jsToString16_oct]

/-- Four octet-sized entries form a list of four octet values. -/
theorem oct4_of_isOct {a b c d : JSNum} (ha : IsOct a) (hb : IsOct b)
    (hc : IsOct c) (hd : IsOct d) :
    ∃ k0 k1 k2 k3 : Nat, k0 < 256 ∧ k1 < 256 ∧ k2 < 256 ∧ k3 < 256 ∧
      ([a, b, c, d] : List JSNum) =
        [some (k0 : Int), some (k1 : Int), some (k2 : Int), some (k3 : Int)] := by
  obtain ⟨k0, h0, rfl⟩ := ha
  obtain ⟨k1, h1, rfl⟩ := hb
  obtain ⟨k2, h2, rfl⟩ := hc
  obtain ⟨k3, h3, rfl⟩ := hd
  exact ⟨k0, k1, k2, k3, h0, h1, h2, h3, rfl⟩

/-- The broadcast address computed by calculate always consists of
four octet values, whatever the stored address contains. -/
theorem broadcast_octets (ip : List JSNum) (m : Int) :
    ∃ k0 k1 k2 k3 : Nat, k0 < 256 ∧ k1 < 256 ∧ k2 < 256 ∧ k3 < 256 ∧
      getBroadcast (getNetwork ip (getNetworkMask m))
          (getInvertedMask (getNetworkMask m)) =
        [some (k0 : Int), some (k1 : Int), some (k2 : Int), some (k3 : Int)] := by
  unfold getBroadcast
  apply oct4_of_isOct <;>
  · simp only [getNetwork, getInvertedMask, getNetworkMask, List.getD_cons_zero,
      List.getD_cons_succ]
    exact isOct_or (isOct_and_right _ (isOct_and255 _)) (isOct_and255 _)

/-- With an address stored and a non-zero prefix length, calculate
returns no error and only overwrites the eleven output fields, each
with a value computed purely from the stored octets and prefix
length. -/
theorem calculate_eq (st : Calculator) (hip : ¬ st.ipOctets.length = 0)
    (hm : ¬ st.maskBits = 0) :
    calculate st = (none, { st with
      ip := joinDot (st.ipOctets.map jsNumToString),
      network := joinDot ((getNetwork st.ipOctets
        (getNetworkMask st.maskBits)).map jsNumToString),
      ipv4Class := getIpV4Class st.ipOctets,
      maxHosts := jsNumToString (jsSub (jsPow2 (32 - st.maskBits)) (some 2)),
      maxNetworks := jsNumToString (jsPow2 st.maskBits),
      wildcard := joinDot ((getInvertedMask
        (getNetworkMask st.maskBits)).map jsNumToString),
      hostMin := joinDot ((getHostMin (getNetwork st.ipOctets
        (getNetworkMask st.maskBits))).map jsNumToString),
      hostMax := joinDot ((hostMaxOf st.ipOctets st.maskBits).map jsNumToString),
      netmask := joinDot ((getNetworkMask st.maskBits).map jsNumToString),
      broadcast := joinDot ((getBroadcast (getNetwork st.ipOctets
          (getNetworkMask st.maskBits))
        (getInvertedMask (getNetworkMask st.maskBits))).map jsNumToString),
      mask := jsNumToString (some st.maskBits) }) := by
  obtain ⟨k0, k1, k2, k3, h0, h1, h2, h3, hb⟩ :=
    broadcast_octets st.ipOctets st.maskBits
  have hmax : hostMaxOf st.ipOctets st.maskBits = hostMaxWhole k0 k1 k2 k3 := by
    unfold hostMaxOf
    rw [hb, getHostMax_eq k0 k1 k2 k3 h0 h1 h2 h3]
  have hmb : getMaskBitsFromSubnetMask st (getNetworkMask st.maskBits) =
      (st, st.maskBits) := by
    unfold getMaskBitsFromSubnetMask
    rw [if_neg hm]
  simp only [calculate, getHostNumber, getNetworkNumber, hmb]
  rw [if_neg (by push_neg; exact ⟨hip, hm⟩)]
  rw [hb, getHostMax_eq k0 k1 k2 k3 h0 h1 h2 h3, hmax]

/-- The error result of calculate is exactly determined by the guard:
the convertToHexa call inside getHostMax can never fail, because the
broadcast octets always re-validate. -/
theorem calculate_fst (st : Calculator) :
    (calculate st).1 = if st.ipOctets.length = 0 ∨ st.maskBits = 0
      then some ErrMsg.invalidIPorMask else none := by
  by_cases h : st.ipOctets.length = 0 ∨ st.maskBits = 0
  · rw [if_pos h]
    unfold calculate
    rw [if_pos h]
  · rw [if_neg h]
    push_neg at h
    rw [calculate_eq st h.1 h.2]

/-- A successful validateIp always returns exactly four entries. -/
theorem validateIp_ok_length (s : List Char) (msg : ErrMsg) (l : List JSNum)
    (h : validateIp s msg = .ok l) : l.length = 4 := by
  unfold validateIp at h
  by_cases h1 : (ipToOctetArray s).length ≠ 4
  · rw [if_pos h1] at h
    simp at h
  · rw [if_neg h1] at h
    by_cases h2 : (ipToOctetArray s).any (fun octet => jlt octet 0 || jgt octet 255)
    · rw [if_pos h2] at h
      simp at h
    · rw [if_neg h2] at h
      simp only [Except.ok.injEq] at h
      subst h
      omega

/-- The per-octet leading-ones loop counts at most its fuel. -/
theorem countLoop_le (fuel : Nat) (x : JSNum) : countLoop fuel x ≤ fuel := by
  induction fuel generalizing x with
  | zero => exact Nat.le_refl 0
  | succ n ih =>
    unfold countLoop
    split
    · have := ih (jsShl x (some 1))
      omega
    · omega

/-- Summing the per-octet counts of a four-entry mask stays within the
32 bits of an address. -/
theorem sum_counts_le (l : List JSNum) (h : l.length = 4) :
    (l.map (countLoop 8)).foldl (· + ·) 0 ≤ 32 := by
  rcases l with _ | ⟨a, _ | ⟨b, _ | ⟨c, _ | ⟨d, t⟩⟩⟩⟩ <;> simp at h
  subst h
  simp only [List.map, List.foldl]
  have ha := countLoop_le 8 a
  have hb := countLoop_le 8 b
  have hc := countLoop_le 8 c
  have hd := countLoop_le 8 d
  omega

/-- On a throwing input, setIp leaves the state untouched. -/
theorem setIp_err_frame (st : Calculator) (s : List Char)
    (h : (setIp st s).1.isSome) : (setIp st s).2 = st := by
  unfold setIp at *
  cases hv : validateIp s ErrMsg.invalidIP with
  | error e => rfl
  | ok o =>
    rw [hv] at h
    simp at h

/-- On a throwing input, setMask leaves the state untouched. -/
theorem setMask_err_frame (st : Calculator) (m : MaskInput)
    (h : (setMask st m).1.isSome) : (setMask st m).2 = st := by
  cases m with
  | num n =>
    have hbody : setMask st (.num n) =
        match validateMask n ErrMsg.invalidMask with
        | .error e => (some e, st)
        | .ok v => (none, { st with maskBits := v }) := rfl
    rw [hbody] at h ⊢
    cases hv : validateMask n ErrMsg.invalidMask with
    | error e => rfl
    | ok v =>
      rw [hv] at h
      simp at h
  | str s =>
    have hbody : setMask st (.str s) =
        (if s ≠ [] ∧ s.all isDecDigit then
          match validateMask (Int.ofNat (digitsVal 10 s)) ErrMsg.invalidMask with
          | .error e => (some e, st)
          | .ok v => (none, { st with maskBits := v })
        else
          match validateIp s ErrMsg.invalidMask with
          | .error e => (some e, st)
          | .ok octets =>
            let r := getMaskBitsFromSubnetMask st octets
            match validateMask r.2 ErrMsg.invalidMask with
            | .error e => (some e, r.1)
            | .ok v => (none, { r.1 with maskBits := v })) := rfl
    rw [hbody] at h ⊢
    by_cases hd : s ≠ [] ∧ s.all isDecDigit
    · rw [if_pos hd] at h ⊢
      cases hv : validateMask (Int.ofNat (digitsVal 10 s)) ErrMsg.invalidMask with
      | error e => rfl
      | ok v =>
        rw [hv] at h
        simp at h
    · rw [if_neg hd] at h ⊢
      cases hvi : validateIp s ErrMsg.invalidMask with
      | error e => rfl
      | ok octets =>
        rw [hvi] at h
        by_cases hz : st.maskBits = 0
        · have hlen : octets.length = 4 := validateIp_ok_length s _ octets hvi
          have hr : getMaskBitsFromSubnetMask st octets =
              ({ st with maskBits := Int.ofNat ((octets.map
                (countLoop 8)).foldl (· + ·) 0) },
                Int.ofNat ((octets.map (countLoop 8)).foldl (· + ·) 0)) := by
            unfold getMaskBitsFromSubnetMask
            rw [if_pos hz]
          have hb := sum_counts_le octets hlen
          have hok : validateMask (Int.ofNat ((octets.map
              (countLoop 8)).foldl (· + ·) 0)) ErrMsg.invalidMask =
              .ok (Int.ofNat ((octets.map (countLoop 8)).foldl (· + ·) 0)) := by
            unfold validateMask
            rw [if_neg (by simp only [Int.ofNat_eq_natCast]; omega)]
          simp only [hr, hok] at h
          simp at h
        · have hr : getMaskBitsFromSubnetMask st octets = (st, st.maskBits) := by
            unfold getMaskBitsFromSubnetMask
            rw [if_neg hz]
          simp only [hr] at h ⊢
          cases hv2 : validateMask st.maskBits ErrMsg.invalidMask with
          | error e => rfl
          | ok v =>
            rw [hv2] at h
            simp at h

set_option maxRecDepth 8000 in
/-- Bit layout of the network mask, checked for every prefix length:
the 32-bit value is 2^32 - 2^(32-P), i.e. bit i is set exactly when
32 - P ≤ i < 32. -/
theorem networkMask_bits : ∀ P : Nat, P < 33 → 1 ≤ P →
    octetsValue (getNetworkMask (P : Int)) = 2 ^ 32 - 2 ^ (32 - P) ∧
      ∀ i : Nat, i < 32 →
        Nat.testBit (octetsValue (getNetworkMask (P : Int))) i =
          decide (32 - P ≤ i) := by decide

/-- AND-ing an octet with the literal 255 returns it unchanged. -/
theorem jsAnd_255_small (k : Nat) (hk : k < 256) :
    jsAnd (some (k : Int)) (some (255 : Int)) = some (k : Int) := by
  have hu : u32 (some (k : Int)) = k := u32_ofNat k (by omega)
  unfold jsAnd
  rw [hu]
  have h255 : u32 (some (255 : Int)) = 255 := by decide
  rw [h255, land255 k hk, int32ofUint_small k hk]
  simp

/-- C1: the spec claims setIp("a.b.c.d") fails with InvalidAddress
because non-numeric segments parse to NaN and must be treated as out
of range.  The code instead returns successfully: NaN compares false
against both range bounds, so four NaN octets are stored. -/
theorem c1_setIp_accepts_nonnumeric :
    (setIp initCalc (s2l ("a.b.c.d"))).1 = none ∧
      (setIp initCalc (s2l ("a.b.c.d"))).2.ipOctets =
        [none, none, none, none] := by decide

/-- C2: the spec claims setMask("255.255.0.0") after a prior
successful setMask(32) stores 16.  The code's getMaskBitsFromSubnetMask
returns the cached non-zero maskBits without counting, so 32 is kept;
only from a zeroed state does the count of 16 emerge. -/
theorem c2_setMask_cached_bits :
    (construct none none).1 = none ∧
      (construct none none).2.maskBits = 32 ∧
      (setMask (construct none none).2 (.str (s2l ("255.255.0.0")))).1 = none ∧
      (setMask (construct none none).2 (.str (s2l ("255.255.0.0")))).2.maskBits = 32 ∧
      (setMask { (construct none none).2 with maskBits := 0 }
        (.str (s2l ("255.255.0.0")))).2.maskBits = 16 := by decide

/-- C3 counterexample: for address 10.0.1.0 with mask 32 the broadcast
is 10.0.1.0, the spec's last-byte-only decrement predicts 10.0.1.255,
but the code produces 160.0.15.15 (whole-value decrement followed by
unpadded re-chunking), refuting the claim at this input. -/
theorem c3_counterexample :
    ((calculate (construct (some (s2l ("10.0.1.0"))) (some (.num 32))).2).2.broadcast
        = s2l ("10.0.1.0")) ∧
      specHostMaxLastByte 10 0 1 0 = [10, 0, 1, 255] ∧
      ((calculate (construct (some (s2l ("10.0.1.0"))) (some (.num 32))).2).2.hostMax
        = s2l ("160.0.15.15")) ∧
      ((calculate (construct (some (s2l ("10.0.1.0"))) (some (.num 32))).2).2.hostMax
        ≠ joinDot ((specHostMaxLastByte 10 0 1 0).map (fun n => natDigits 10 n))) := by
  decide

/-- C3 (amended): for every pair accepted by calculate, hostMax is the
serialization of the whole-value decrement of the broadcast address:
the 4-byte hexadecimal string is parsed as one integer, decremented by
1 with borrows propagating across bytes (the single byte ff replaces
the result only when the entire value underflows), and the unpadded
hexadecimal text is re-chunked two digits at a time. -/
theorem c3_amended_hostMax_whole_value (st : Calculator) (k0 k1 k2 k3 : Nat)
    (h0 : k0 < 256) (h1 : k1 < 256) (h2 : k2 < 256) (h3 : k3 < 256)
    (hip : ¬ st.ipOctets.length = 0) (hm : ¬ st.maskBits = 0)
    (hb : getBroadcast (getNetwork st.ipOctets (getNetworkMask st.maskBits))
        (getInvertedMask (getNetworkMask st.maskBits)) =
      [some (k0 : Int), some (k1 : Int), some (k2 : Int), some (k3 : Int)]) :
    (calculate st).2.hostMax =
      joinDot ((hostMaxWhole k0 k1 k2 k3).map jsNumToString) := by
  rw [calculate_eq st hip hm]
  show joinDot ((hostMaxOf st.ipOctets st.maskBits).map jsNumToString) = _
  unfold hostMaxOf
  rw [hb, getHostMax_eq k0 k1 k2 k3 h0 h1 h2 h3]

/-- Witness for the amended C3 at address 10.0.1.0 with mask 32. -/
theorem c3_amended_witness :
    (calculate (construct (some (s2l ("10.0.1.0"))) (some (.num 32))).2).2.hostMax =
      joinDot ((hostMaxWhole 10 0 1 0).map jsNumToString) :=
  c3_amended_hostMax_whole_value _ 10 0 1 0 (by decide) (by decide) (by decide)
    (by decide) (by decide) (by decide) (by decide)

/-- C4: the stored-octet invariant (4 entries, each an integer in
[0, 255], never NaN) is violated in a reachable state: after a
successful default construction, setIp("a.b.c.d") returns without
error and stores four NaN octets. -/
theorem c4_invariant_violated :
    (setIp (construct none none).2 (s2l ("a.b.c.d"))).1 = none ∧
      (setIp (construct none none).2 (s2l ("a.b.c.d"))).2.ipOctets =
        [none, none, none, none] := by decide

/-- C5: calculate fails, and fails with invalidIPorMask, exactly when
the stored address is absent or the stored prefix length is zero; with
four stored octets and a non-zero prefix length it returns no error. -/
theorem c5_calculate_guard (st : Calculator) (_hr : Reachable st) :
    ((calculate st).1 = some ErrMsg.invalidIPorMask ↔
      (st.ipOctets = [] ∨ st.maskBits = 0)) ∧
    (st.ipOctets.length = 4 → st.maskBits ≠ 0 → (calculate st).1 = none) := by
  constructor
  · rw [calculate_fst]
    by_cases h : st.ipOctets.length = 0 ∨ st.maskBits = 0
    · rw [if_pos h]
      constructor
      · intro _
        rcases h with h | h
        · exact Or.inl (List.length_eq_zero.mp h)
        · exact Or.inr h
      · intro _
        rfl
    · rw [if_neg h]
      push_neg at h
      constructor
      · intro hc
        exact absurd hc (by simp)
      · intro hc
        rcases hc with hc | hc
        · exact absurd (show st.ipOctets.length = 0 by rw [hc]; rfl) h.1
        · exact absurd hc h.2
  · intro h4 hnz
    rw [calculate_fst, if_neg (by push_neg; exact ⟨by omega, hnz⟩)]

/-- Witness for C5 at the default-constructed instance. -/
theorem c5_witness :
    ((calculate (construct none none).2).1 = some ErrMsg.invalidIPorMask ↔
      ((construct none none).2.ipOctets = [] ∨ (construct none none).2.maskBits = 0)) ∧
    ((construct none none).2.ipOctets.length = 4 →
      (construct none none).2.maskBits ≠ 0 →
      (calculate (construct none none).2).1 = none) :=
  c5_calculate_guard _ (Reachable.of_construct none none _ (by decide))

/-- C6: whenever setIp or setMask throws, the stored octets and prefix
length (indeed the whole state) are exactly what they were before the
call. -/
theorem c6_setter_failure_frame (st : Calculator) :
    (∀ s, (setIp st s).1.isSome → (setIp st s).2 = st) ∧
      (∀ m, (setMask st m).1.isSome → (setMask st m).2 = st) :=
  ⟨fun s h => setIp_err_frame st s h, fun m h => setMask_err_frame st m h⟩

/-- Witness for C6: a 3-segment address and an out-of-range numeric
mask both throw and leave the default-constructed state unchanged. -/
theorem c6_witness :
    (setIp (construct none none).2 (s2l ("1.2.3"))).2 = (construct none none).2 ∧
      (setMask (construct none none).2 (.num 33)).2 = (construct none none).2 :=
  ⟨(c6_setter_failure_frame _).1 _ (by decide),
    (c6_setter_failure_frame _).2 _ (by decide)⟩

/-- C7: under calculate's precondition the call returns no error,
leaves the stored octets and prefix length untouched, and a second
calculate returns exactly the same state (all eleven output fields
included). -/
theorem c7_calculate_idempotent (st : Calculator) (h4 : st.ipOctets.length = 4)
    (hnz : st.maskBits ≠ 0) :
    (calculate st).1 = none ∧
      (calculate st).2.ipOctets = st.ipOctets ∧
      (calculate st).2.maskBits = st.maskBits ∧
      calculate ((calculate st).2) = (none, (calculate st).2) := by
  have hip : ¬ st.ipOctets.length = 0 := by omega
  have h1 := calculate_eq st hip hnz
  refine ⟨by rw [h1], by rw [h1], by rw [h1], ?_⟩
  rw [h1]
  exact calculate_eq _ hip hnz

/-- Witness for C7 at the default-constructed instance. -/
theorem c7_witness :
    (calculate (construct none none).2).1 = none ∧
      (calculate (construct none none).2).2.ipOctets =
        (construct none none).2.ipOctets ∧
      (calculate (construct none none).2).2.maskBits =
        (construct none none).2.maskBits ∧
      calculate ((calculate (construct none none).2).2) =
        (none, (calculate (construct none none).2).2) :=
  c7_calculate_idempotent _ (by decide) (by decide)

/-- C8: for every stored prefix length P in [1, 32] the computed
netmask, read as a 32-bit value from its 4 octets, has exactly P
leading one-bits followed by 32 - P zero-bits: its value is
2^32 - 2^(32-P) and bit i is set exactly when 32 - P ≤ i < 32. -/
theorem c8_netmask_prefix_bits (P : Nat) (hP1 : 1 ≤ P) (hP2 : P ≤ 32) :
    octetsValue (getNetworkMask (P : Int)) = 2 ^ 32 - 2 ^ (32 - P) ∧
      ∀ i : Nat, i < 32 →
        Nat.testBit (octetsValue (getNetworkMask (P : Int))) i =
          decide (32 - P ≤ i) :=
  networkMask_bits P (by omega) hP1

/-- Witness for C8 at prefix length 24. -/
theorem c8_witness :
    octetsValue (getNetworkMask ((24 : Nat) : Int)) = 2 ^ 32 - 2 ^ (32 - 24) ∧
      ∀ i : Nat, i < 32 →
        Nat.testBit (octetsValue (getNetworkMask ((24 : Nat) : Int))) i =
          decide (32 - 24 ≤ i) :=
  c8_netmask_prefix_bits 24 (by decide) (by decide)

/-- C9: for address 0.0.0.1 with mask 16 (broadcast 0.0.255.255)
calculate succeeds and hostMax is the string "255.254", which has only
two dot-separated components, because the decremented broadcast value
is re-serialized to hexadecimal without leading zeros before being
re-chunked. -/
theorem c9_hostmax_two_components :
    (calculate (construct (some (s2l ("0.0.0.1"))) (some (.num 16))).2).1 = none ∧
      (calculate (construct (some (s2l ("0.0.0.1"))) (some (.num 16))).2).2.hostMax
        = s2l ("255.254") ∧
      (splitDot ((calculate (construct (some (s2l ("0.0.0.1")))
        (some (.num 16))).2).2.hostMax)).length = 2 := by decide

/-- C10: for every valid address ending in octet 255 combined with
prefix length 32, calculate succeeds and hostMin's last dot-separated
component is the out-of-range octet string "256", because the minimum
host adds 1 to the network's last octet with no bound or carry. -/
theorem c10_hostmin_out_of_range (st : Calculator) (a b c : Nat)
    (ha : a ≤ 255) (hb : b ≤ 255) (hc : c ≤ 255)
    (hip : st.ipOctets = [some (a : Int), some (b : Int), some (c : Int),
      some (255 : Int)])
    (hm : st.maskBits = 32) :
    (calculate st).1 = none ∧
      (splitDot ((calculate st).2.hostMin)).getLast? = some (s2l ("256")) := by
  have h4 : ¬ st.ipOctets.length = 0 := by rw [hip]; simp
  have hnz : ¬ st.maskBits = 0 := by rw [hm]; omega
  have h1 := calculate_eq st h4 hnz
  refine ⟨by rw [h1], ?_⟩
  rw [h1]
  show (splitDot (joinDot ((getHostMin (getNetwork st.ipOctets
    (getNetworkMask st.maskBits))).map jsNumToString))).getLast? = _
  rw [hip, hm]
  have hnm : getNetworkMask (32 : Int) =
      [some (255 : Int), some (255 : Int), some (255 : Int), some (255 : Int)] := by
    decide
  rw [hnm]
  simp only [getNetwork, List.getD_cons_zero, List.getD_cons_succ]
  rw [jsAnd_255_small a (by omega), jsAnd_255_small b (by omega),
    jsAnd_255_small c (by omega)]
  have h255 : jsAnd (some (255 : Int)) (some (255 : Int)) = some (255 : Int) := by
    decide
  rw [h255]
  simp only [getHostMin, List.getD_cons_succ, List.getD_cons_zero,
    List.set_cons_succ, List.set_cons_zero]
  have hadd : jsAdd (some (255 : Int)) (some 1) = some (256 : Int) := by decide
  rw [hadd]
  have h256 : jsNumToString (some (256 : Int)) = s2l ("256") := by decide
  simp only [List.map, jsNumToString_oct, h256]
  have hsplit : splitDot (joinDot [natDigits 10 a, natDigits 10 b, natDigits 10 c,
      s2l ("256")]) = [natDigits 10 a, natDigits 10 b, natDigits 10 c,
      s2l ("256")] := by
    apply splitDot_joinDot _ (by simp)
    intro s hs
    simp only [List.mem_cons, List.not_mem_nil, or_false] at hs
    rcases hs with h | h | h | h <;> subst h
    · exact (decPiece a (by omega)).2.2
    · exact (decPiece b (by omega)).2.2
    · exact (decPiece c (by omega)).2.2
    · decide
  rw [hsplit]
  rfl

/-- Witness for C10 at address 1.2.3.255 with mask 32. -/
theorem c10_witness :
    (calculate (construct (some (s2l ("1.2.3.255"))) (some (.num 32))).2).1 = none ∧
      (splitDot ((calculate (construct (some (s2l ("1.2.3.255")))
        (some (.num 32))).2).2.hostMin)).getLast? = some (s2l ("256")) :=
  c10_hostmin_out_of_range _ 1 2 3 (by decide) (by decide) (by decide)
    (by decide) (by decide)
